import Mathlib

/-!
Verification of the dspy-recommender retrieval-and-enrichment pipeline.

Shallow embedding of the python sources:
  - `customer_context.py` : customer history fetcher (CRM flattening, sentinels)
  - `product_ingestion.py`: corpus builder and ChromaDB ingestion
  - `qdrant.py`          : Qdrant ingestion variant
  - `ingest_products.py` : Qdrant batch ingestion entry point
  - `rag_module.py`      : query pipeline orchestrator (RAG.forward)
plus a spec-modelled Enrichment Reconciler (its code is not in the repository
snapshot; only the spec describes it).

Python strings are modelled by `String`, Python dicts by association lists in
iteration (insertion) order, HTTP/network effects by explicit response values,
and exceptions by `Except`.
-/

set_option maxRecDepth 100000

deriving instance DecidableEq for Except

namespace Recommender

/-! ### Python string and dict primitives

All primitives are written by structural recursion over `String.data`
(Python strings are sequences of code points, which `String.data` mirrors),
so every definition evaluates inside the kernel. -/

/-- Python `s[:n]`: character-count slicing. -/
def pyTake (s : String) (n : Nat) : String :=
  ⟨s.data.take n⟩

/-- Python `s.strip()`: remove leading and trailing whitespace. -/
def pyStrip (s : String) : String :=
  ⟨((s.data.dropWhile Char.isWhitespace).reverse.dropWhile Char.isWhitespace).reverse⟩

/-- Python `str.capitalize()`: first character upper-cased, the rest
lower-cased. -/
def pyCapitalize (s : String) : String :=
  match s.data with
  | [] => ""
  | c :: cs => ⟨Char.toUpper c :: cs.map Char.toLower⟩

/-- Python `"\n".join(parts)`. -/
def pyJoin (parts : List String) : String :=
  String.intercalate "\n" parts

/-- Split a character list at every occurrence of `sep`; Python
`s.split(sep)` semantics for a one-character separator (the empty string
splits to one empty field). -/
def splitOnChar (sep : Char) : List Char → List (List Char)
  | [] => [[]]
  | c :: cs =>
    let r := splitOnChar sep cs
    if c = sep then [] :: r
    else
      match r with
      | [] => [[c]]
      | h :: t => (c :: h) :: t

/-- Python `s.split(sep)` for a one-character separator. -/
def pySplit (s : String) (sep : Char) : List String :=
  (splitOnChar sep s.data).map (fun cs => ⟨cs⟩)

/-- Python dict lookup `d.get(k)` on an insertion-ordered association list. -/
def dictLookup (k : String) : List (String × α) → Option α
  | [] => none
  | (k', v) :: rest => if k = k' then some v else dictLookup k rest

/-- Python dict assignment `d[k] = v`: replace in place when the key is
present (later duplicates overwrite), append otherwise. -/
def dictInsert (k : String) (v : α) : List (String × α) → List (String × α)
  | [] => [(k, v)]
  | (k', v') :: rest =>
    if k = k' then (k, v) :: rest else (k', v') :: dictInsert k v rest

/-- Python `d[k]` on a string-valued dict: `KeyError` when the key is
absent, modelled as `Except.error`. -/
def pyGet (entry : List (String × String)) (k : String) : Except String String :=
  match dictLookup k entry with
  | some v => .ok v
  | none => .error ("KeyError: " ++ k)

/-! ### Customer History Fetcher (`customer_context.py`)

`get_customer_history_context` posts one CRM request and flattens the
response.  The response is modelled explicitly: a network-level error
(`requests.exceptions.RequestException`, which the function catches), or an
HTTP response with a status code and the five logical tables.  Each table row
is modelled as a record holding the fields the formatter reads; `data.get`
with a list default makes missing tables empty lists, which the record model
absorbs. -/

/-- One row of `crm_init` (install/purchase records); fields read at
`customer_context.py` lines 31-36. -/
structure InstallRecord where
  zzprod_desc : String
  zzinstall_date : String
  city1 : String
  zzr3ser_no : String
  warrantydesc : String
  warranty_sdate : String
  warranty_edate : String
deriving Repr, DecidableEq

/-- One row of `crm_allcall` (service calls). -/
structure CallRecord where
  ticket : String
  product : String
  status : String
  postingDate : String
  machineStatus : String
deriving Repr, DecidableEq

/-- One row of `cust_likes` (free-text customer notes). -/
structure LikeRecord where
  textbox : String
  timestamp : String
deriving Repr, DecidableEq

/-- One row of `crm_amccontracts` (AMC contract records). -/
structure AmcRecord where
  amctype : String
  cont_strt_dat : String
  cont_end_dat : String
  zzmat_grp : String
  price : String
deriving Repr, DecidableEq

/-- One row of `sap_spu` (spare-part usage). -/
structure SpuRecord where
  spare : String
  quantity : String
  crmticket : String
  matdes : String
  machstat : String
deriving Repr, DecidableEq

/-- The JSON body of a successful CRM response: the five logical tables. -/
structure CrmData where
  crm_init : List InstallRecord
  crm_allcall : List CallRecord
  cust_likes : List LikeRecord
  crm_amccontracts : List AmcRecord
  sap_spu : List SpuRecord
deriving Repr, DecidableEq

/-- Outcome of the CRM POST: either a network-level error (caught as
`requests.exceptions.RequestException`) or an HTTP response with status code
and parsed body. -/
inductive CrmResponse where
  | networkError : CrmResponse
  | http (status : Nat) (data : CrmData) : CrmResponse
deriving Repr, DecidableEq

/-- `customer_context.py` line 32-36. -/
def fmtInstall (item : InstallRecord) : String :=
  "Product: " ++ item.zzprod_desc ++ ", Installed on: " ++ item.zzinstall_date ++
  ", City: " ++ item.city1 ++ ", Serial: " ++ item.zzr3ser_no ++
  ", Warranty: " ++ item.warrantydesc ++ " (" ++ item.warranty_sdate ++
  " to " ++ item.warranty_edate ++ ")"

/-- `customer_context.py` line 41-43. -/
def fmtCall (call : CallRecord) : String :=
  "Service Ticket " ++ call.ticket ++ " for " ++ call.product ++ " was " ++
  call.status ++ " on " ++ call.postingDate ++ ". Machine Status: " ++
  call.machineStatus

/-- `customer_context.py` line 49 (the quotes around the text are ASCII
apostrophes, written via escapes). -/
def fmtLike (like : LikeRecord) : String :=
  "Customer mentioned: \x27" ++ like.textbox ++ "\x27 on " ++ like.timestamp

/-- `customer_context.py` line 53-55. -/
def fmtAmc (amc : AmcRecord) : String :=
  "AMC Type: " ++ amc.amctype ++ ", Valid from " ++ amc.cont_strt_dat ++
  " to " ++ amc.cont_end_dat ++ ", Group: " ++ amc.zzmat_grp ++
  ", Price: " ++ amc.price

/-- `customer_context.py` line 60-62. -/
def fmtSpu (spu : SpuRecord) : String :=
  "Spare Used: " ++ spu.spare ++ " (Qty: " ++ spu.quantity ++ ") in ticket " ++
  spu.crmticket ++ " for " ++ spu.matdes ++ ". Machine Status: " ++ spu.machstat

/-- The `history_parts` list accumulated by `get_customer_history_context`:
install records, then service calls, then customer notes, then AMC contracts,
then spare-part usage (`customer_context.py` lines 28-63).  The `if
data.get(...)` guards around `crm_allcall` and `cust_likes` only skip empty
lists, which is what mapping over the empty list does as well. -/
def historyParts (data : CrmData) : List String :=
  data.crm_init.map fmtInstall ++
  data.crm_allcall.map fmtCall ++
  data.cust_likes.map fmtLike ++
  data.crm_amccontracts.map fmtAmc ++
  data.sap_spu.map fmtSpu

/-- `get_customer_history_context` (`customer_context.py` lines 4-69),
abstracted over the CRM response the POST produced.  Total: every external
failure the function catches is a constructor of `CrmResponse`, so the model
never "raises". -/
def get_customer_history_context (resp : CrmResponse) : String :=
  match resp with
  | .networkError => "No customer history found."
  | .http status data =>
    if status ≠ 200 then
      "No customer history found."
    else
      let parts := historyParts data
      if parts.isEmpty then "No significant customer history found."
      else pyJoin parts

/-! ### Corpus Builder (`product_ingestion.py`, `qdrant.py`)

A catalog entry is a JSON product object; the fields read by the builders
are modelled explicitly, each `Option` capturing presence of the key
(`product.get(k, '')` / `if k in product`).  Values are modelled by the
string the python f-strings interpolate them as.  A loaded review entry is
itself a python dict (`load_amazon_reviews` stores the keys `asin`, `url`,
`reviews`), modelled as an association list so that dynamic key access —
and its possible `KeyError` — is expressible. -/

/-- A product record from `products_all.json`, restricted to the fields the
two `load_and_process_products` variants read.  `material_id` is the key the
Chroma variant reads (`product_ingestion.py` line 59); `material` is the key
the Qdrant variant reads (`qdrant.py` line 75). -/
structure Product where
  model_name : Option String
  category : Option String
  basic_info : Option (List (String × String))
  specifications : Option (List (String × List (String × String)))
  material_id : Option String
  material : Option String
deriving Repr, DecidableEq

/-- A loaded review entry: the python dict stored per material id. -/
abbrev ReviewEntry := List (String × String)

/-- The reviews dict: material id → review entry, insertion ordered. -/
abbrev ReviewsDict := List (String × ReviewEntry)

/-- Iterate the data lines of the review file
(`product_ingestion.py` lines 24-30 and identically `qdrant.py` lines
40-46): strip, split on the pipe, unpack exactly four fields — any other
field count raises `ValueError` and aborts the load — and overwrite-insert
under the material id. -/
def loadReviewLines (d : ReviewsDict) : List String → Except String ReviewsDict
  | [] => .ok d
  | line :: rest =>
    match pySplit (pyStrip line) '|' with
    | [material_id, asin, url, reviews] =>
      loadReviewLines
        (dictInsert material_id [("asin", asin), ("url", url), ("reviews", reviews)] d)
        rest
    | _ => .error ("ValueError: cannot unpack line " ++ line)

/-- `load_amazon_reviews` (`product_ingestion.py` lines 18-31, `qdrant.py`
lines 34-47), over the file's lines: `next(f)` skips the header
unconditionally (raising `StopIteration` on an empty file), then every data
line is parsed. -/
def load_amazon_reviews (lines : List String) : Except String ReviewsDict :=
  match lines with
  | [] => .error "StopIteration"
  | _ :: rest => loadReviewLines [] rest

/-- `flatten_specifications` (`product_ingestion.py` lines 10-16): each
section contributes a separator line then one `key: val` line per entry,
all joined with newlines into a single string. -/
def flatten_specifications (specs : List (String × List (String × String))) : String :=
  pyJoin (specs.flatMap (fun se =>
    ("--- " ++ se.1 ++ " ---") :: se.2.map (fun kv => kv.1 ++ ": " ++ kv.2)))

/-- The lines common to both builder variants (`product_ingestion.py` lines
46-56): model, category, capitalized basic-info pairs, and the flattened
specification sections as one element. -/
def baseLines (p : Product) : List String :=
  ["Model: " ++ p.model_name.getD "", "Category: " ++ p.category.getD ""]
  ++ (match p.basic_info with
      | none => []
      | some bi => bi.map (fun kv => pyCapitalize kv.1 ++ ": " ++ kv.2))
  ++ (match p.specifications with
      | none => []
      | some specs => [flatten_specifications specs])

/-- The review-section marker line appended by both builders. -/
def amazonMarker : String := "--- Amazon Reviews ---"

/-- Chroma-variant document lines (`product_ingestion.py` lines 44-63): when
the product's `material_id` is a key of the reviews dict, append the marker
and the entry's `reviews` and `url` values (both present in loader output,
but dict access is modelled faithfully as fallible). -/
def chromaLines (rd : ReviewsDict) (p : Product) : Except String (List String) :=
  let material_id := p.material_id.getD ""
  match dictLookup material_id rd with
  | none => .ok (baseLines p)
  | some entry => do
    let r ← pyGet entry "reviews"
    let u ← pyGet entry "url"
    .ok (baseLines p ++ [amazonMarker, "Customer Feedback: " ++ r, "Amazon URL: " ++ u])

/-- `corpus_text = "\n".join(lines).strip()[:max_characters]`
(`product_ingestion.py` line 65). -/
def chromaDoc (rd : ReviewsDict) (maxc : Nat) (p : Product) : Except String String := do
  let lines ← chromaLines rd p
  .ok (pyTake (pyStrip (pyJoin lines)) maxc)

/-- A document's metadata record (`product_ingestion.py` lines 69-75). -/
structure DocMeta where
  product_id : String
  material_id : String
  category : String
  model_name : String
  has_reviews : Bool
deriving Repr, DecidableEq

/-- Chroma-variant metadata for one product. -/
def chromaMeta (rd : ReviewsDict) (pid : String) (p : Product) : DocMeta :=
  let material_id := p.material_id.getD ""
  { product_id := pid
    material_id := material_id
    category := p.category.getD ""
    model_name := p.model_name.getD ""
    has_reviews := (dictLookup material_id rd).isSome }

/-- The per-product loop of the Chroma `load_and_process_products`
(`product_ingestion.py` lines 41-78): one document and one metadata record
appended per catalog entry, in catalog iteration order. -/
def processProducts (rd : ReviewsDict) (maxc : Nat) :
    List (String × Product) → Except String (List String × List DocMeta)
  | [] => .ok ([], [])
  | (pid, p) :: rest => do
    let doc ← chromaDoc rd maxc p
    let (docs, metas) ← processProducts rd maxc rest
    .ok (doc :: docs, chromaMeta rd pid p :: metas)

/-- Load the reviews dict from an optional file
(`reviews_dict = load_amazon_reviews(reviews_path) if reviews_path else {}`). -/
def loadReviewsOpt : Option (List String) → Except String ReviewsDict
  | some ls => load_amazon_reviews ls
  | none => .ok []

/-- `load_and_process_products` (`product_ingestion.py` lines 33-78):
`max_characters` defaults to 2000 in the source. -/
def load_and_process_products (catalog : List (String × Product))
    (reviewLines : Option (List String)) (maxc : Nat := 2000) :
    Except String (List String × List DocMeta) := do
  let rd ← loadReviewsOpt reviewLines
  processProducts rd maxc catalog

/-! ### Chroma Index Adapter (`product_ingestion.py` lines 80-111) -/

/-- One stored Chroma record. -/
structure ChromaItem where
  id : String
  document : String
  metadata : DocMeta
deriving Repr, DecidableEq

/-- The persisted Chroma collection. -/
structure ChromaCollection where
  items : List ChromaItem
deriving Repr, DecidableEq

/-- `collection.count()`. -/
def ChromaCollection.count (c : ChromaCollection) : Nat :=
  c.items.length

/-- Build the stored records of a `collection.add(documents, metadatas,
ids)` call from the three aligned lists. -/
def addItems : List String → List String → List DocMeta → List ChromaItem
  | id :: ids, d :: ds, m :: ms => ⟨id, d, m⟩ :: addItems ids ds ms
  | _, _, _ => []

/-- `collection.add` appends the aligned records to the collection. -/
def collection_add (c : ChromaCollection) (docs : List String)
    (metas : List DocMeta) (ids : List String) : ChromaCollection :=
  ⟨c.items ++ addItems ids docs metas⟩

/-- `initialize_chroma` (`product_ingestion.py` lines 91-111), abstracted
over the persisted collection the client opened: the bulk load runs only
when `collection.count() == 0`, with ids `str(0), ..., str(n-1)` assigned
from list positions.  The second component counts records written. -/
def initialize_chroma (c : ChromaCollection) (catalog : List (String × Product))
    (reviewLines : Option (List String)) :
    Except String (ChromaCollection × Nat) :=
  if c.count = 0 then do
    let (corpus, metadata) ← load_and_process_products catalog reviewLines
    .ok (collection_add c corpus metadata ((List.range corpus.length).map toString),
         corpus.length)
  else
    .ok (c, 0)

/-! ### Qdrant ingestion variant (`qdrant.py`, `ingest_products.py`)

`qdrant.py` repeats `load_amazon_reviews` verbatim and repeats
`load_and_process_products` with two differences: the material key read
from the product is `'material'`, and the review entry is accessed under
the keys `'AI-reviews'` and `'Product-url'` (`qdrant.py` lines 74-79),
which `load_amazon_reviews` never writes. -/

/-- Qdrant-variant document lines (`qdrant.py` lines 60-79). -/
def qdrantLines (rd : ReviewsDict) (p : Product) : Except String (List String) :=
  let material_id := p.material.getD ""
  match dictLookup material_id rd with
  | none => .ok (baseLines p)
  | some entry => do
    let r ← pyGet entry "AI-reviews"
    let u ← pyGet entry "Product-url"
    .ok (baseLines p ++ [amazonMarker, "Customer Feedback: " ++ r, "Amazon URL: " ++ u])

/-- `corpus_text = "\n".join(lines).strip()[:max_characters]`
(`qdrant.py` line 81). -/
def qdrantDoc (rd : ReviewsDict) (maxc : Nat) (p : Product) : Except String String := do
  let lines ← qdrantLines rd p
  .ok (pyTake (pyStrip (pyJoin lines)) maxc)

/-- Qdrant-variant metadata (`qdrant.py` lines 85-91). -/
def qdrantMeta (rd : ReviewsDict) (pid : String) (p : Product) : DocMeta :=
  let material_id := p.material.getD ""
  { product_id := pid
    material_id := material_id
    category := p.category.getD ""
    model_name := p.model_name.getD ""
    has_reviews := (dictLookup material_id rd).isSome }

/-- The per-product loop of the Qdrant `load_and_process_products`
(`qdrant.py` lines 57-96). -/
def processProductsQdrant (rd : ReviewsDict) (maxc : Nat) :
    List (String × Product) → Except String (List String × List DocMeta)
  | [] => .ok ([], [])
  | (pid, p) :: rest => do
    let doc ← qdrantDoc rd maxc p
    let (docs, metas) ← processProductsQdrant rd maxc rest
    .ok (doc :: docs, qdrantMeta rd pid p :: metas)

/-- Qdrant `load_and_process_products` (`qdrant.py` lines 49-96). -/
def load_and_process_products_qdrant (catalog : List (String × Product))
    (reviewLines : Option (List String)) (maxc : Nat := 2000) :
    Except String (List String × List DocMeta) := do
  let rd ← loadReviewsOpt reviewLines
  processProductsQdrant rd maxc catalog

/-- One stored Qdrant point: integer id plus payload (text and metadata). -/
structure QdrantPoint where
  id : Nat
  text : String
  meta : DocMeta
deriving Repr, DecidableEq

/-- The Qdrant collection state. -/
structure QdrantCollection where
  points : List QdrantPoint
deriving Repr, DecidableEq

/-- `points_count`. -/
def QdrantCollection.count (c : QdrantCollection) : Nat :=
  c.points.length

/-- The stored point ids, in storage order. -/
def QdrantCollection.ids (c : QdrantCollection) : List Nat :=
  c.points.map QdrantPoint.id

/-- Upsert one point: replace the point with the same id when present,
append otherwise. -/
def qdrant_upsert_point (c : QdrantCollection) (p : QdrantPoint) : QdrantCollection :=
  if c.points.any (fun q => q.id = p.id) then
    ⟨c.points.map (fun q => if q.id = p.id then p else q)⟩
  else
    ⟨c.points ++ [p]⟩

/-- `client.upsert` over a point list, point by point. -/
def qdrant_upsert (c : QdrantCollection) (ps : List QdrantPoint) : QdrantCollection :=
  ps.foldl qdrant_upsert_point c

/-- The points `ingest_products` builds (`qdrant.py` lines 133-151): the
batch loop over chunks of 100 assigns `id = idx + i`, the global position of
the document; the concatenation over all batches enumerates the aligned
corpus/metadata positions in order, which this definition flattens. -/
def mkQdrantPoints (corpus : List String) (metadata : List DocMeta) : List QdrantPoint :=
  ((corpus.zip metadata).enum).map (fun x => ⟨x.1, x.2.1, x.2.2⟩)

/-- `ingest_products` (`qdrant.py` lines 121-160), abstracted over the
collection state the client opened (`initialize_qdrant` creates the
collection when absent and never clears it): loads the corpus and upserts
every point unconditionally — there is no emptiness guard in this variant.
The second component counts points written (upserted). -/
def ingest_products (c : QdrantCollection) (catalog : List (String × Product))
    (reviewLines : Option (List String)) :
    Except String (QdrantCollection × Nat) := do
  let (corpus, metadata) ← load_and_process_products_qdrant catalog reviewLines
  let pts := mkQdrantPoints corpus metadata
  .ok (qdrant_upsert c pts, pts.length)

/-- `ingest_data` (`ingest_products.py` lines 5-28): the batch ingestion
entry point; it fixes the file paths and calls `ingest_products`. -/
def ingest_data (c : QdrantCollection) (catalog : List (String × Product))
    (reviewLines : Option (List String)) :
    Except String (QdrantCollection × Nat) :=
  ingest_products c catalog reviewLines

/-- Running the Qdrant batch ingestion entry point a second time on the
collection the first run produced. -/
def qdrantSecondRun (c : QdrantCollection) (catalog : List (String × Product))
    (reviewLines : Option (List String)) :
    Except String (QdrantCollection × Nat) := do
  let (c1, _) ← ingest_data c catalog reviewLines
  ingest_data c1 catalog reviewLines

/-! ### Query Pipeline Orchestrator (`rag_module.py`)

`RAG.forward` sequences four language-model/index calls around the customer
history fetch.  The external capabilities are an environment of oracles; an
oracle is invoked only through a helper that also emits the corresponding
call event, so the returned trace records exactly the calls made, in order,
with the arguments passed. -/

/-- Output of the `EnhanceQuestion` signature (`signatures.py` lines 23-27). -/
structure EnhancePrediction where
  enhanced_question : String
  confidence : String
deriving Repr, DecidableEq

/-- Output of the `summariseCustomerHistory` signature (`signatures.py`
lines 17-21). -/
structure SummaryPrediction where
  summary : String
  confidence : String
deriving Repr, DecidableEq

/-- One `ProductRecommendation` record (`signatures.py` lines 4-14); the
float fields are modelled as rationals. -/
structure ProductRec where
  product_id : String
  model_name : String
  category : String
  recommendation_type : String
  price : Rat
  match_score : Rat
  reasons : String
  key_features : List String
  amazon_review_summary : String
  amazon_url : String
deriving Repr, DecidableEq

/-- Output of the `RecommendProducts` signature (`signatures.py` lines
29-44). -/
structure RecommendPrediction where
  persona_name : String
  description : String
  key_characteristics : List String
  frequency : String
  preferred_categories : List String
  price_sensitivity : String
  maintenance_type : String
  common_issues : List String
  price_range : String
  features : List String
  recommendations : List ProductRec
deriving Repr, DecidableEq

/-- The external capabilities `RAG.forward` invokes: the three
chain-of-thought predictors, the retriever, and the CRM endpoint behind
`get_customer_history_context`. -/
structure RagEnv where
  enhance : String → EnhancePrediction
  retrieve : String → List String
  crm : String → CrmResponse
  summarize : String → SummaryPrediction
  recommend : List String → String → SummaryPrediction → RecommendPrediction

/-- One external call, with the arguments it was given. -/
inductive RagEvent where
  | enhanceCall (question : String)
  | retrieveCall (query : String)
  | historyCall (customer_id : String)
  | summarizeCall (customer_message : String)
  | recommendCall (question : String) (context : List String)
      (customer_details : SummaryPrediction)
deriving Repr, DecidableEq

/-- Invoke the question enhancer, logging the call. -/
def callEnhance (env : RagEnv) (q : String) : List RagEvent × EnhancePrediction :=
  ([.enhanceCall q], env.enhance q)

/-- Invoke the retriever, logging the call. -/
def callRetrieve (env : RagEnv) (q : String) : List RagEvent × List String :=
  ([.retrieveCall q], env.retrieve q)

/-- Invoke `get_customer_history_context`, logging the call. -/
def callHistory (env : RagEnv) (cid : String) : List RagEvent × String :=
  ([.historyCall cid], get_customer_history_context (env.crm cid))

/-- Invoke the history summarizer, logging the call. -/
def callSummarize (env : RagEnv) (msg : String) : List RagEvent × SummaryPrediction :=
  ([.summarizeCall msg], env.summarize msg)

/-- Invoke the structured recommendation generator, logging the call. -/
def callRecommend (env : RagEnv) (q : String) (ctx : List String)
    (details : SummaryPrediction) : List RagEvent × RecommendPrediction :=
  ([.recommendCall q ctx details], env.recommend ctx q details)

/-- `RAG.forward` (`rag_module.py` lines 17-52): enhance the raw question,
retrieve with the enhanced question (`new_question`), fetch the customer
history, summarize it, then generate with
`context=context, question=new_question, customer_details=customer_summary`
(the summarization output object).  Returns the prediction and the ordered
trace of external calls. -/
def RAG_forward (env : RagEnv) (question customer_id : String) :
    RecommendPrediction × List RagEvent :=
  let (t1, enhanced_question) := callEnhance env question
  let new_question := enhanced_question.enhanced_question
  let (t2, context) := callRetrieve env new_question
  let (t3, customer_details) := callHistory env customer_id
  let (t4, customer_summary) := callSummarize env customer_details
  let (t5, prediction) := callRecommend env new_question context customer_summary
  (prediction, t1 ++ t2 ++ t3 ++ t4 ++ t5)

/-! ### Enrichment Reconciler (modelled from the spec)

The repository snapshot contains no implementation of the Enrichment
Reconciler; only the specification (section 4.5) describes it.  The
definitions below are modelled from the spec's words and are marked as
such.  As with the orchestrator, lookups and the price fetch are logged so
that "the product_id-keyed lookup is never performed" is expressible. -/

/-- A reconciled price: a parsed number, the raw unparsed currency string,
or the null/empty sentinel. -/
inductive PriceVal where
  | num (n : Nat)
  | raw (s : String)
  | null
deriving Repr, DecidableEq

/-- Modelled from the spec: a metadata record as the Reconciler's lookups
return it — it may carry an `amazon_url` and a canonical `product_id`. -/
structure MetaRecord where
  product_id : Option String
  amazon_url : Option String
deriving Repr, DecidableEq

/-- Modelled from the spec: a model-produced recommendation as the
Reconciler mutates it — the `material_id`-like key the model may supply,
the `product_id`, the generated price, and the `amazon_url`. -/
structure RecRecord where
  product_id : String
  material_id : Option String
  price : PriceVal
  amazon_url : String
deriving Repr, DecidableEq

/-- Outcome of the pricing POST: HTTP 200 carrying the MRP string, or a
non-200 response / exception (the spec folds both into one failure mode:
price becomes the null sentinel). -/
inductive PricingOutcome where
  | ok200 (mrp : String)
  | failure
deriving Repr, DecidableEq

/-- Modelled from the spec: the external capabilities the Reconciler uses —
metadata lookup keyed by `material_id`, metadata lookup keyed by
`product_id`, and the pricing endpoint called with the product id. -/
structure ReconEnv where
  lookupByMaterial : String → Option MetaRecord
  lookupByProduct : String → Option MetaRecord
  pricing : String → PricingOutcome

/-- One external access performed by the Reconciler. -/
inductive ReconEvent where
  | materialLookup (mid : String)
  | productLookup (pid : String)
  | priceFetch (model_id : String)
deriving Repr, DecidableEq

/-- Whether a trace contains a product_id-keyed metadata lookup. -/
def hasProductLookup (t : List ReconEvent) : Bool :=
  t.any (fun e => match e with | .productLookup _ => true | _ => false)

/-- Parse zero or more decimal digits as a number; `none` on the empty list
or any non-digit. -/
def digitsToNat : List Char → Option Nat
  | [] => none
  | cs =>
    if cs.all Char.isDigit then
      some (cs.foldl (fun n c => n * 10 + (c.toNat - 48)) 0)
    else
      none

/-- Modelled from the spec: parse a currency-formatted MRP string — strip
the thousands separators (commas) and a trailing `".00"`, then convert to a
number; `none` when what remains is not a plain number. -/
def parseMRP (s : String) : Option Nat :=
  let cs := s.data.filter (fun c => c ≠ ',')
  let core := if cs.reverse.take 3 = ['0', '0', '.'] then (cs.reverse.drop 3).reverse else cs
  digitsToNat core

/-- Modelled from the spec: overlay the pricing outcome onto the
recommendation — on 200 the parsed number, or the raw string when parsing
fails; on non-200 or any exception the null sentinel, overwriting whatever
the model generated. -/
def applyPrice (outcome : PricingOutcome) (r : RecRecord) : RecRecord :=
  match outcome with
  | .ok200 mrp =>
    { r with price := match parseMRP mrp with
                      | some n => .num n
                      | none => .raw mrp }
  | .failure => { r with price := .null }

/-- Modelled from the spec: the fallback path — look up metadata by
`product_id`, overwrite `amazon_url` when the record carries one, then
fetch the live price. -/
def reconcileByProduct (env : ReconEnv) (r : RecRecord) (evs : List ReconEvent) :
    RecRecord × List ReconEvent :=
  let r1 := match env.lookupByProduct r.product_id with
            | some m => { r with amazon_url := m.amazon_url.getD r.amazon_url }
            | none => r
  (applyPrice (env.pricing r1.product_id) r1,
   evs ++ [.productLookup r.product_id, .priceFetch r1.product_id])

/-- Modelled from the spec (section 4.5): reconcile one recommendation.
When the model supplied a `material_id`-like key and the material lookup
finds a record, overwrite `amazon_url` (and the canonical `product_id`)
from it, fetch the live price, and stop — the product_id-keyed lookup is
not performed.  Otherwise fall back to the product_id-keyed lookup. -/
def reconcileOne (env : ReconEnv) (r : RecRecord) : RecRecord × List ReconEvent :=
  match r.material_id with
  | some mid =>
    match env.lookupByMaterial mid with
    | some m =>
      let r1 := { r with amazon_url := m.amazon_url.getD r.amazon_url,
                         product_id := m.product_id.getD r.product_id }
      (applyPrice (env.pricing r1.product_id) r1,
       [.materialLookup mid, .priceFetch r1.product_id])
    | none => reconcileByProduct env r [.materialLookup mid]
  | none => reconcileByProduct env r []

/-- Modelled from the spec: reconcile every recommendation, sequentially
and independently — the outcome for one recommendation (including a failed
price fetch, absorbed into the null sentinel) never aborts the others. -/
def reconcile (env : ReconEnv) (recs : List RecRecord) : List RecRecord :=
  recs.map (fun r => (reconcileOne env r).1)

/-! ### Concrete sample values (used by witnesses and counterexamples) -/

/-- An empty CRM result set: all five tables empty. -/
def crmEmpty : CrmData := ⟨[], [], [], [], []⟩

/-- A sample install record. -/
def installSample : InstallRecord :=
  ⟨"WM Front Load", "2024-01-05", "Pune", "SER123", "Standard", "2024-01-05", "2026-01-05"⟩

/-- A CRM result with exactly one install record and the other four tables
empty. -/
def crmOneInstall : CrmData := ⟨[installSample], [], [], [], []⟩

/-- A sample product; its `material_id` (Chroma key) and `material` (Qdrant
key) both point at the review entry of `rdSample`. -/
def productSample : Product :=
  { model_name := some "TL-RGS 7 kg Aqua"
    category := some "Washing Machine"
    basic_info := some [("color", "white")]
    specifications := some [("General", [("capacity", "7 kg")])]
    material_id := some "M1"
    material := some "M1" }

/-- A sample product with no review link under either key. -/
def productPlain : Product :=
  { model_name := some "Neptune VX"
    category := some "Dishwasher"
    basic_info := some [("color", "silver")]
    specifications := none
    material_id := none
    material := none }

/-- The review-file lines for one record under material id `M1`. -/
def reviewLinesSample : List String :=
  ["material_id|asin|url|reviews", "M1|A1|http://a|Great machine"]

/-- The reviews dict `load_amazon_reviews` produces from
`reviewLinesSample`. -/
def rdSample : ReviewsDict :=
  [("M1", [("asin", "A1"), ("url", "http://a"), ("reviews", "Great machine")])]

/-- A one-product catalog whose product matches the loaded review. -/
def catSample : List (String × Product) := [("8903287021718", productSample)]

/-- A one-product catalog with no review match. -/
def catPlain : List (String × Product) := [("8903287099999", productPlain)]

/-- The document lines the Chroma builder produces for `productSample`
under `rdSample`. -/
def linesSample : List String :=
  baseLines productSample ++
  [amazonMarker, "Customer Feedback: Great machine", "Amazon URL: http://a"]

/-- The document the Chroma builder produces for `productSample`. -/
def docSample : String := pyTake (pyStrip (pyJoin linesSample)) 2000

/-- The corpus for `catSample`. -/
def corpusSample : List String := [docSample]

/-- The metadata list for `catSample`. -/
def mdSample : List DocMeta := [chromaMeta rdSample "8903287021718" productSample]

/-- The Chroma collection `initialize_chroma` builds from the empty
collection over `catSample`. -/
def chromaAfterSample : ChromaCollection :=
  ⟨[⟨"0", docSample, chromaMeta rdSample "8903287021718" productSample⟩]⟩

/-- A nonempty Chroma collection (one arbitrary stored item). -/
def chromaNonempty : ChromaCollection :=
  ⟨[⟨"0", "existing document", ⟨"8903287000000", "", "Microwave", "MX", false⟩⟩]⟩

/-- The Qdrant document for `productPlain` with no reviews file. -/
def qdrantDocPlain : String := pyTake (pyStrip (pyJoin (baseLines productPlain))) 2000

/-- The Qdrant collection state after ingesting `catPlain` into the empty
collection. -/
def qdrantAfterPlain : QdrantCollection :=
  ⟨[⟨0, qdrantDocPlain, qdrantMeta [] "8903287099999" productPlain⟩]⟩

/-- A sample ground-truth metadata record carrying a URL and a canonical
product id. -/
def metaRecSample : MetaRecord :=
  { product_id := some "8903287021718", amazon_url := some "http://a" }

/-- A Reconciler environment: material id `M1` resolves to `metaRecSample`,
product lookups find nothing, and the pricing endpoint answers HTTP 200
with `1,234.00`. -/
def reconEnvOk : ReconEnv :=
  { lookupByMaterial := fun mid => if mid = "M1" then some metaRecSample else none
    lookupByProduct := fun _ => none
    pricing := fun _ => .ok200 "1,234.00" }

/-- A Reconciler environment whose pricing endpoint always fails (non-200
or exception). -/
def reconEnvFail : ReconEnv :=
  { lookupByMaterial := fun mid => if mid = "M1" then some metaRecSample else none
    lookupByProduct := fun _ => none
    pricing := fun _ => .failure }

/-- A model-produced recommendation carrying a material id and a
model-guessed price and URL. -/
def recSample : RecRecord :=
  { product_id := "P-guess"
    material_id := some "M1"
    price := .num 999
    amazon_url := "http://model-guess" }

/-! ### Helper lemmas -/

theorem pyTake_length_le (s : String) (n : Nat) : (pyTake s n).length ≤ n := by
  show (s.data.take n).length ≤ n
  rw [List.length_take]
  exact min_le_left _ _

theorem chromaDoc_length_le {rd : ReviewsDict} {maxc : Nat} {p : Product} {doc : String}
    (h : chromaDoc rd maxc p = .ok doc) : doc.length ≤ maxc := by
  unfold chromaDoc at h
  cases hl : chromaLines rd p with
  | error e => rw [hl] at h; exact absurd h (by simp [Bind.bind, Except.bind])
  | ok lines =>
    rw [hl] at h
    simp only [Bind.bind, Except.bind, Except.ok.injEq] at h
    rw [← h]
    exact pyTake_length_le _ _

/-- Inversion of the per-product Chroma loop: lengths agree with the
catalog and each position carries the document and metadata of the catalog
entry at the same position. -/
theorem processProducts_spec (rd : ReviewsDict) (maxc : Nat) :
    ∀ (catalog : List (String × Product)) (corpus : List String) (md : List DocMeta),
      processProducts rd maxc catalog = .ok (corpus, md) →
      corpus.length = catalog.length ∧ md.length = catalog.length ∧
      ∀ i (hi : i < catalog.length) (hc : i < corpus.length) (hm : i < md.length),
        chromaDoc rd maxc (catalog.get ⟨i, hi⟩).2 = .ok (corpus.get ⟨i, hc⟩) ∧
        md.get ⟨i, hm⟩ = chromaMeta rd (catalog.get ⟨i, hi⟩).1 (catalog.get ⟨i, hi⟩).2 := by
  intro catalog
  induction catalog with
  | nil =>
    intro corpus md h
    simp only [processProducts, Except.ok.injEq, Prod.mk.injEq] at h
    obtain ⟨h1, h2⟩ := h
    subst h1; subst h2
    exact ⟨rfl, rfl, fun i hi => absurd hi (Nat.not_lt_zero i)⟩
  | cons pp rest ih =>
    intro corpus md h
    obtain ⟨pid, p⟩ := pp
    cases hdoc : chromaDoc rd maxc p with
    | error e =>
      rw [processProducts, hdoc] at h
      exact absurd h (by simp [Bind.bind, Except.bind])
    | ok doc =>
      cases hrest : processProducts rd maxc rest with
      | error e =>
        rw [processProducts, hdoc, hrest] at h
        exact absurd h (by simp [Bind.bind, Except.bind])
      | ok pr =>
        obtain ⟨docs, metas⟩ := pr
        rw [processProducts, hdoc, hrest] at h
        simp only [Bind.bind, Except.bind, Except.ok.injEq, Prod.mk.injEq] at h
        obtain ⟨h1, h2⟩ := h
        subst h1; subst h2
        obtain ⟨ihc, ihm, ihget⟩ := ih docs metas hrest
        refine ⟨by simpa using ihc, by simpa using ihm, ?_⟩
        intro i hi hc hm
        cases i with
        | zero => exact ⟨hdoc, rfl⟩
        | succ n =>
          exact ihget n (Nat.lt_of_succ_lt_succ hi) (Nat.lt_of_succ_lt_succ hc)
            (Nat.lt_of_succ_lt_succ hm)

/-- Inversion of the per-product Qdrant loop: lengths agree with the
catalog. -/
theorem processProductsQdrant_lengths (rd : ReviewsDict) (maxc : Nat) :
    ∀ (catalog : List (String × Product)) (corpus : List String) (md : List DocMeta),
      processProductsQdrant rd maxc catalog = .ok (corpus, md) →
      corpus.length = catalog.length ∧ md.length = catalog.length := by
  intro catalog
  induction catalog with
  | nil =>
    intro corpus md h
    simp only [processProductsQdrant, Except.ok.injEq, Prod.mk.injEq] at h
    obtain ⟨h1, h2⟩ := h
    subst h1; subst h2
    exact ⟨rfl, rfl⟩
  | cons pp rest ih =>
    intro corpus md h
    obtain ⟨pid, p⟩ := pp
    cases hdoc : qdrantDoc rd maxc p with
    | error e =>
      rw [processProductsQdrant, hdoc] at h
      exact absurd h (by simp [Bind.bind, Except.bind])
    | ok doc =>
      cases hrest : processProductsQdrant rd maxc rest with
      | error e =>
        rw [processProductsQdrant, hdoc, hrest] at h
        exact absurd h (by simp [Bind.bind, Except.bind])
      | ok pr =>
        obtain ⟨docs, metas⟩ := pr
        rw [processProductsQdrant, hdoc, hrest] at h
        simp only [Bind.bind, Except.bind, Except.ok.injEq, Prod.mk.injEq] at h
        obtain ⟨h1, h2⟩ := h
        subst h1; subst h2
        obtain ⟨ihc, ihm⟩ := ih docs metas hrest
        exact ⟨by simpa using ihc, by simpa using ihm⟩

/-- A malformed data line (field count other than four) drives the review
loader into its error branch, wherever it sits in the remaining lines. -/
theorem loadReviewLines_error (line : String)
    (hbad : (pySplit (pyStrip line) '|').length ≠ 4) :
    ∀ (ls : List String) (d : ReviewsDict), line ∈ ls →
      (loadReviewLines d ls).isOk = false := by
  intro ls
  induction ls with
  | nil => intro d hmem; cases hmem
  | cons a rest ih =>
    intro d hmem
    rw [loadReviewLines]
    split
    · next mid asin url revs heq =>
      cases hmem with
      | head =>
        exact absurd (by rw [heq]; rfl) hbad
      | tail _ hmem' => exact ih _ hmem'
    · next => rfl

/-- The shape of every review entry the loader stores: exactly the keys
`asin`, `url`, `reviews`. -/
def entryShape (e : ReviewEntry) : Prop :=
  ∃ a u r, e = [("asin", a), ("url", u), ("reviews", r)]

theorem dictInsert_mem {α : Type} {kv : String × α} {k : String} {v : α} :
    ∀ {d : List (String × α)}, kv ∈ dictInsert k v d → kv = (k, v) ∨ kv ∈ d := by
  intro d
  induction d with
  | nil =>
    intro h
    simp only [dictInsert, List.mem_singleton] at h
    exact Or.inl h
  | cons hd tl ih =>
    obtain ⟨k', v'⟩ := hd
    intro h
    rw [dictInsert] at h
    by_cases hk : k = k'
    · rw [if_pos hk] at h
      cases h with
      | head => exact Or.inl rfl
      | tail _ h' => exact Or.inr (List.mem_cons_of_mem _ h')
    · rw [if_neg hk] at h
      cases h with
      | head => exact Or.inr (List.mem_cons_self _ _)
      | tail _ h' =>
        cases ih h' with
        | inl he => exact Or.inl he
        | inr hm => exact Or.inr (List.mem_cons_of_mem _ hm)

theorem dictLookup_mem {α : Type} {k : String} {v : α} :
    ∀ {d : List (String × α)}, dictLookup k d = some v → (k, v) ∈ d := by
  intro d
  induction d with
  | nil => intro h; cases h
  | cons hd tl ih =>
    obtain ⟨k', v'⟩ := hd
    intro h
    rw [dictLookup] at h
    by_cases hk : k = k'
    · rw [if_pos hk] at h
      cases h
      rw [hk]
      exact List.mem_cons_self _ _
    · rw [if_neg hk] at h
      exact List.mem_cons_of_mem _ (ih h)

/-- Every entry the review loader stores has the loader's shape. -/
theorem loadReviewLines_shape :
    ∀ (ls : List String) (d rd : ReviewsDict),
      (∀ kv ∈ d, entryShape kv.2) →
      loadReviewLines d ls = .ok rd →
      ∀ kv ∈ rd, entryShape kv.2 := by
  intro ls
  induction ls with
  | nil =>
    intro d rd hd h
    simp only [loadReviewLines, Except.ok.injEq] at h
    subst h
    exact hd
  | cons a rest ih =>
    intro d rd hd h
    rw [loadReviewLines] at h
    revert h
    split
    · next mid asin url revs heq =>
      intro h
      refine ih _ rd ?_ h
      intro kv hkv
      cases dictInsert_mem hkv with
      | inl he => exact ⟨asin, url, revs, by rw [he]⟩
      | inr hm => exact hd kv hm
    · next => intro h; cases h

theorem load_amazon_reviews_shape {lines : List String} {rd : ReviewsDict}
    (h : load_amazon_reviews lines = .ok rd) :
    ∀ kv ∈ rd, entryShape kv.2 := by
  cases lines with
  | nil => cases h
  | cons hdr rest =>
    exact loadReviewLines_shape rest [] rd (by intro kv hkv; cases hkv) h

/-- A loader-shaped entry has no `AI-reviews` key: reading it raises
`KeyError`. -/
theorem pyGet_AIreviews_of_shape {e : ReviewEntry} (h : entryShape e) :
    pyGet e "AI-reviews" = .error "KeyError: AI-reviews" := by
  obtain ⟨a, u, r, he⟩ := h
  subst he
  simp [pyGet, dictLookup]

/-! Qdrant upsert lemmas. -/

theorem qdrant_upsert_point_ids_mem {c : QdrantCollection} {a : Nat} (p : QdrantPoint)
    (h : a ∈ c.ids) : a ∈ (qdrant_upsert_point c p).ids := by
  rw [qdrant_upsert_point]
  split
  · next hany =>
    obtain ⟨q, hq, hqa⟩ := List.mem_map.mp h
    apply List.mem_map.mpr
    refine ⟨if q.id = p.id then p else q, List.mem_map_of_mem _ hq, ?_⟩
    by_cases hid : q.id = p.id
    · rw [if_pos hid]; rw [← hqa, hid]
    · rw [if_neg hid]; exact hqa
  · next =>
    show a ∈ (c.points ++ [p]).map QdrantPoint.id
    rw [List.map_append]
    exact List.mem_append_left _ h

theorem qdrant_upsert_point_id_mem (c : QdrantCollection) (p : QdrantPoint) :
    p.id ∈ (qdrant_upsert_point c p).ids := by
  rw [qdrant_upsert_point]
  split
  · next hany =>
    obtain ⟨q, hq, hqe⟩ := List.any_eq_true.mp hany
    have hqid : q.id = p.id := by simpa using hqe
    apply List.mem_map.mpr
    exact ⟨p, List.mem_map.mpr ⟨q, hq, by rw [if_pos hqid]⟩, rfl⟩
  · next =>
    show p.id ∈ (c.points ++ [p]).map QdrantPoint.id
    rw [List.map_append]
    exact List.mem_append_right _ (by simp)

theorem qdrant_upsert_ids_mem {c : QdrantCollection} {a : Nat}
    (pts : List QdrantPoint) (h : a ∈ c.ids) : a ∈ (qdrant_upsert c pts).ids := by
  induction pts generalizing c with
  | nil => exact h
  | cons p rest ih => exact ih (qdrant_upsert_point_ids_mem p h)

theorem qdrant_upsert_mem_ids {p : QdrantPoint} :
    ∀ (pts : List QdrantPoint) (c : QdrantCollection), p ∈ pts →
      p.id ∈ (qdrant_upsert c pts).ids := by
  intro pts
  induction pts with
  | nil => intro c h; cases h
  | cons q rest ih =>
    intro c h
    cases h with
    | head =>
      exact qdrant_upsert_ids_mem rest (qdrant_upsert_point_id_mem c p)
    | tail _ h' => exact ih _ h'

theorem qdrant_upsert_point_ids_of_mem {c : QdrantCollection} {p : QdrantPoint}
    (h : p.id ∈ c.ids) : (qdrant_upsert_point c p).ids = c.ids := by
  have hany : c.points.any (fun q => q.id = p.id) = true := by
    obtain ⟨q, hq, hqa⟩ := List.mem_map.mp h
    exact List.any_eq_true.mpr ⟨q, hq, by simpa using hqa⟩
  rw [qdrant_upsert_point, if_pos hany]
  show (c.points.map _).map QdrantPoint.id = c.points.map QdrantPoint.id
  rw [List.map_map]
  apply List.map_congr_left
  intro q _
  by_cases hid : q.id = p.id
  · simp [hid]
  · simp [hid]

theorem qdrant_upsert_ids_of_all_mem :
    ∀ (pts : List QdrantPoint) (c : QdrantCollection),
      (∀ p ∈ pts, p.id ∈ c.ids) → (qdrant_upsert c pts).ids = c.ids := by
  intro pts
  induction pts with
  | nil => intro c _; rfl
  | cons p rest ih =>
    intro c h
    have h1 : (qdrant_upsert_point c p).ids = c.ids :=
      qdrant_upsert_point_ids_of_mem (h p (List.mem_cons_self _ _))
    have h2 : (qdrant_upsert (qdrant_upsert_point c p) rest).ids =
        (qdrant_upsert_point c p).ids := by
      apply ih
      intro q hq
      rw [h1]
      exact h q (List.mem_cons_of_mem _ hq)
    calc (qdrant_upsert c (p :: rest)).ids
        = (qdrant_upsert (qdrant_upsert_point c p) rest).ids := rfl
      _ = (qdrant_upsert_point c p).ids := h2
      _ = c.ids := h1

theorem QdrantCollection.count_eq_ids_length (c : QdrantCollection) :
    c.count = c.ids.length := by
  show c.points.length = (c.points.map QdrantPoint.id).length
  rw [List.length_map]

/-! Alignment of `collection.add`. -/

theorem addItems_map_id :
    ∀ (ids ds : List String) (ms : List DocMeta),
      ids.length = ds.length → ds.length = ms.length →
      (addItems ids ds ms).map ChromaItem.id = ids := by
  intro ids
  induction ids with
  | nil =>
    intro ds ms h1 _
    cases ds with
    | nil => rfl
    | cons _ _ => cases h1
  | cons i rest ih =>
    intro ds ms h1 h2
    cases ds with
    | nil => cases h1
    | cons d ds' =>
      cases ms with
      | nil => cases h2
      | cons m ms' =>
        show i :: (addItems rest ds' ms').map ChromaItem.id = i :: rest
        rw [ih ds' ms' (Nat.succ.inj h1) (Nat.succ.inj h2)]

theorem addItems_map_document :
    ∀ (ids ds : List String) (ms : List DocMeta),
      ids.length = ds.length → ds.length = ms.length →
      (addItems ids ds ms).map ChromaItem.document = ds := by
  intro ids
  induction ids with
  | nil =>
    intro ds ms h1 _
    cases ds with
    | nil => rfl
    | cons _ _ => cases h1
  | cons i rest ih =>
    intro ds ms h1 h2
    cases ds with
    | nil => cases h1
    | cons d ds' =>
      cases ms with
      | nil => cases h2
      | cons m ms' =>
        show d :: (addItems rest ds' ms').map ChromaItem.document = d :: ds'
        rw [ih ds' ms' (Nat.succ.inj h1) (Nat.succ.inj h2)]

theorem addItems_map_metadata :
    ∀ (ids ds : List String) (ms : List DocMeta),
      ids.length = ds.length → ds.length = ms.length →
      (addItems ids ds ms).map ChromaItem.metadata = ms := by
  intro ids
  induction ids with
  | nil =>
    intro ds ms h1 h2
    cases ds with
    | nil =>
      cases ms with
      | nil => rfl
      | cons _ _ => cases h2
    | cons _ _ => cases h1
  | cons i rest ih =>
    intro ds ms h1 h2
    cases ds with
    | nil => cases h1
    | cons d ds' =>
      cases ms with
      | nil => cases h2
      | cons m ms' =>
        show m :: (addItems rest ds' ms').map ChromaItem.metadata = m :: ms'
        rw [ih ds' ms' (Nat.succ.inj h1) (Nat.succ.inj h2)]

/-! Qdrant review-key mismatch lemmas. -/

theorem qdrantDoc_keyError {rd : ReviewsDict} {p : Product} (maxc : Nat)
    (hshape : ∀ kv ∈ rd, entryShape kv.2)
    (hmatch : (dictLookup (p.material.getD "") rd).isSome = true) :
    qdrantDoc rd maxc p = .error "KeyError: AI-reviews" := by
  obtain ⟨entry, hentry⟩ := Option.isSome_iff_exists.mp hmatch
  have hshape' : entryShape entry := hshape _ (dictLookup_mem hentry)
  have hlines : qdrantLines rd p = .error "KeyError: AI-reviews" := by
    rw [qdrantLines, hentry]
    simp [Bind.bind, Except.bind, pyGet_AIreviews_of_shape hshape']
  rw [qdrantDoc, hlines]
  rfl

theorem qdrantLines_no_match {rd : ReviewsDict} {p : Product}
    (hnone : dictLookup (p.material.getD "") rd = none) :
    qdrantLines rd p = .ok (baseLines p) := by
  rw [qdrantLines, hnone]

theorem processProductsQdrant_error_of_match {rd : ReviewsDict} {maxc : Nat}
    {pid : String} {p : Product} (hshape : ∀ kv ∈ rd, entryShape kv.2) :
    ∀ (catalog : List (String × Product)), (pid, p) ∈ catalog →
      (dictLookup (p.material.getD "") rd).isSome = true →
      (processProductsQdrant rd maxc catalog).isOk = false := by
  intro catalog
  induction catalog with
  | nil => intro h; cases h
  | cons pp rest ih =>
    intro hmem hmatch
    cases hmem with
    | head =>
      rw [processProductsQdrant, qdrantDoc_keyError maxc hshape hmatch]
      rfl
    | tail _ hmem' =>
      obtain ⟨pid', p'⟩ := pp
      rw [processProductsQdrant]
      cases hdoc : qdrantDoc rd maxc p' with
      | error e => rfl
      | ok doc =>
        have hrest := ih hmem' hmatch
        cases hrestv : processProductsQdrant rd maxc rest with
        | error e => simp [Bind.bind, Except.bind, hrestv, Except.isOk, Except.toBool]
        | ok pr => rw [hrestv] at hrest; cases hrest

theorem processProductsQdrant_ok_of_no_match {rd : ReviewsDict} {maxc : Nat} :
    ∀ (catalog : List (String × Product)),
      (∀ pp ∈ catalog, dictLookup ((pp : String × Product).2.material.getD "") rd = none) →
      (processProductsQdrant rd maxc catalog).isOk = true := by
  intro catalog
  induction catalog with
  | nil => intro _; rfl
  | cons pp rest ih =>
    intro hnone
    obtain ⟨pid, p⟩ := pp
    have hdoc : qdrantDoc rd maxc p = .ok (pyTake (pyStrip (pyJoin (baseLines p))) maxc) := by
      rw [qdrantDoc, qdrantLines_no_match (hnone (pid, p) (List.mem_cons_self _ _))]
      rfl
    have hrest := ih (fun q hq => hnone q (List.mem_cons_of_mem _ hq))
    rw [processProductsQdrant, hdoc]
    cases hrestv : processProductsQdrant rd maxc rest with
    | error e => rw [hrestv] at hrest; cases hrest
    | ok pr =>
      obtain ⟨docs, metas⟩ := pr
      simp [Bind.bind, Except.bind, Except.isOk, Except.toBool]

theorem ingest_data_isOk {lines : List String} {rd : ReviewsDict}
    (c : QdrantCollection) (catalog : List (String × Product))
    (hload : load_amazon_reviews lines = .ok rd) :
    (ingest_data c catalog (some lines)).isOk =
      (processProductsQdrant rd 2000 catalog).isOk := by
  rw [ingest_data, ingest_products, load_and_process_products_qdrant]
  show (Except.bind (Except.bind (loadReviewsOpt (some lines)) _) _).isOk = _
  rw [loadReviewsOpt, hload]
  cases hv : processProductsQdrant rd 2000 catalog with
  | error e => simp [Except.bind, hv, Except.isOk, Except.toBool]
  | ok pr =>
    obtain ⟨corpus, md⟩ := pr
    simp [Except.bind, hv, Except.isOk, Except.toBool]

theorem mkQdrantPoints_length (corpus : List String) (md : List DocMeta) :
    (mkQdrantPoints corpus md).length = min corpus.length md.length := by
  simp [mkQdrantPoints]

/-! ### Claim theorems -/

/-- C1: `RAG.forward` runs its stages strictly sequentially with no stage
skipped — the external-call trace of every invocation is exactly: enhance
the raw question; retrieve with the enhanced question (not the raw one);
fetch the customer history; summarize the fetched history; generate with
the enhanced question, the retrieved passages and the summarization output
— and the returned prediction is that generation's output. -/
theorem rag_forward_sequential_stages (env : RagEnv) (question customer_id : String) :
    RAG_forward env question customer_id =
      (env.recommend
         (env.retrieve (env.enhance question).enhanced_question)
         (env.enhance question).enhanced_question
         (env.summarize (get_customer_history_context (env.crm customer_id))),
       [RagEvent.enhanceCall question,
        RagEvent.retrieveCall (env.enhance question).enhanced_question,
        RagEvent.historyCall customer_id,
        RagEvent.summarizeCall (get_customer_history_context (env.crm customer_id)),
        RagEvent.recommendCall (env.enhance question).enhanced_question
          (env.retrieve (env.enhance question).enhanced_question)
          (env.summarize (get_customer_history_context (env.crm customer_id)))]) :=
  rfl

/-- C2: when a recommendation's material id resolves to a stored metadata
record carrying an `amazon_url`, the reconciled record carries exactly that
URL and the trace of that reconciliation contains no product_id-keyed
lookup (the material match short-circuits); the product path, with its
product_id lookup, is only ever entered when no material match is found. -/
theorem reconcile_material_short_circuits (env : ReconEnv) (r : RecRecord)
    (mid : String) (m : MetaRecord) (u : String)
    (h1 : r.material_id = some mid)
    (h2 : env.lookupByMaterial mid = some m)
    (h3 : m.amazon_url = some u) :
    (reconcileOne env r).1.amazon_url = u ∧
    hasProductLookup (reconcileOne env r).2 = false := by
  simp only [reconcileOne, h1, h2]
  constructor
  · cases hp : env.pricing (m.product_id.getD r.product_id) <;>
      simp [applyPrice, hp, h3]
  · simp [hasProductLookup]

/-- C2 witness: a concrete environment and recommendation exercising the
material-id short circuit. -/
theorem reconcile_material_short_circuits_witness :
    recSample.material_id = some "M1" ∧
    reconEnvOk.lookupByMaterial "M1" = some metaRecSample ∧
    metaRecSample.amazon_url = some "http://a" ∧
    ((reconcileOne reconEnvOk recSample).1.amazon_url = "http://a" ∧
     hasProductLookup (reconcileOne reconEnvOk recSample).2 = false) :=
  ⟨rfl, by decide, rfl,
   reconcile_material_short_circuits reconEnvOk recSample "M1" metaRecSample "http://a"
     rfl (by decide) rfl⟩

/-- C3: when the pricing endpoint answers HTTP 200, the reconciled price is
the parsed number when the MRP string parses (in particular `1,234.00`
parses to `1234`) and the raw string otherwise; when the pricing call fails
(non-200 or exception), the price is the null sentinel regardless of what
the model generated; and reconciliation maps over the recommendations one
by one, so the outcome for one recommendation never aborts the others. -/
theorem reconcile_price_overlay (env1 env2 : ReconEnv) (r1 r2 : RecRecord)
    (s : String) (recs : List RecRecord)
    (h1 : ∀ id, env1.pricing id = .ok200 s)
    (h2 : ∀ id, env2.pricing id = .failure) :
    ((reconcileOne env1 r1).1.price =
       match parseMRP s with
       | some n => PriceVal.num n
       | none => PriceVal.raw s) ∧
    (reconcileOne env2 r2).1.price = PriceVal.null ∧
    parseMRP "1,234.00" = some 1234 ∧
    reconcile env1 recs = recs.map (fun r => (reconcileOne env1 r).1) ∧
    (reconcile env1 recs).length = recs.length := by
  refine ⟨?_, ?_, by decide, rfl, List.length_map _ _⟩
  · rcases hm : r1.material_id with _ | mid
    · rcases hl : env1.lookupByProduct r1.product_id with _ | m <;>
        simp [reconcileOne, hm, reconcileByProduct, hl, applyPrice, h1 _]
    · rcases hml : env1.lookupByMaterial mid with _ | m
      · rcases hl : env1.lookupByProduct r1.product_id with _ | m2 <;>
          simp [reconcileOne, hm, hml, reconcileByProduct, hl, applyPrice, h1 _]
      · simp [reconcileOne, hm, hml, applyPrice, h1 _]
  · rcases hm : r2.material_id with _ | mid
    · rcases hl : env2.lookupByProduct r2.product_id with _ | m <;>
        simp [reconcileOne, hm, reconcileByProduct, hl, applyPrice, h2 _]
    · rcases hml : env2.lookupByMaterial mid with _ | m
      · rcases hl : env2.lookupByProduct r2.product_id with _ | m2 <;>
          simp [reconcileOne, hm, hml, reconcileByProduct, hl, applyPrice, h2 _]
      · simp [reconcileOne, hm, hml, applyPrice, h2 _]

/-- C3 witness: the concrete environments exercising the 200 branch (MRP
`1,234.00` parses to `1234`) and the failure branch (null sentinel
overwrites the generated price `999`). -/
theorem reconcile_price_overlay_witness :
    ((reconcileOne reconEnvOk recSample).1.price =
       match parseMRP "1,234.00" with
       | some n => PriceVal.num n
       | none => PriceVal.raw "1,234.00") ∧
    (reconcileOne reconEnvFail recSample).1.price = PriceVal.null ∧
    parseMRP "1,234.00" = some 1234 ∧
    reconcile reconEnvOk [recSample] =
      [recSample].map (fun r => (reconcileOne reconEnvOk r).1) ∧
    (reconcile reconEnvOk [recSample]).length = ([recSample] : List RecRecord).length :=
  reconcile_price_overlay reconEnvOk reconEnvFail recSample recSample "1,234.00" [recSample]
    (fun _ => rfl) (fun _ => rfl)

/-- C4 counterexample: the code tests `status_code != 200`, not membership
in the 2xx class — a status-204 response whose five tables are all empty is
a 2xx response, yet the fetcher returns "No customer history found."
rather than the claimed "No significant customer history found.". -/
theorem history_2xx_counterexample :
    (200 ≤ 204 ∧ 204 < 300) ∧
    crmEmpty.crm_init = [] ∧ crmEmpty.crm_allcall = [] ∧ crmEmpty.cust_likes = [] ∧
    crmEmpty.crm_amccontracts = [] ∧ crmEmpty.sap_spu = [] ∧
    get_customer_history_context (.http 204 crmEmpty) = "No customer history found." ∧
    get_customer_history_context (.http 204 crmEmpty) ≠
      "No significant customer history found." := by
  decide

/-- C4 (amended): the fetcher is total (every absorbed failure is a
constructor of `CrmResponse`, so it never raises); on a network-level error
or on any response whose status is not exactly 200 — which covers every
non-2xx status — it returns "No customer history found."; and on a
status-200 response whose five logical tables are all empty it returns
"No significant customer history found.". -/
theorem history_sentinels (s : Nat) (d d0 : CrmData)
    (hs : s ≠ 200)
    (h0 : d0.crm_init = [] ∧ d0.crm_allcall = [] ∧ d0.cust_likes = [] ∧
          d0.crm_amccontracts = [] ∧ d0.sap_spu = []) :
    get_customer_history_context .networkError = "No customer history found." ∧
    get_customer_history_context (.http s d) = "No customer history found." ∧
    get_customer_history_context (.http 200 d0) =
      "No significant customer history found." := by
  obtain ⟨h1, h2, h3, h4, h5⟩ := h0
  refine ⟨rfl, ?_, ?_⟩
  · rw [get_customer_history_context, if_pos hs]
  · have hparts : historyParts d0 = [] := by
      rw [historyParts, h1, h2, h3, h4, h5]
      rfl
    rw [get_customer_history_context]
    simp [hparts]

/-- C4 witness: status 404 with data present, and status 200 with all five
tables empty. -/
theorem history_sentinels_witness :
    ((404 : Nat) ≠ 200) ∧
    (crmEmpty.crm_init = [] ∧ crmEmpty.crm_allcall = [] ∧ crmEmpty.cust_likes = [] ∧
     crmEmpty.crm_amccontracts = [] ∧ crmEmpty.sap_spu = []) ∧
    (get_customer_history_context .networkError = "No customer history found." ∧
     get_customer_history_context (.http 404 crmOneInstall) = "No customer history found." ∧
     get_customer_history_context (.http 200 crmEmpty) =
       "No significant customer history found.") :=
  ⟨by decide, by decide,
   history_sentinels 404 crmOneInstall crmEmpty (by decide) (by decide)⟩

/-- C8: on a status-200 response, the output is one line per logical
record, joined with newlines in the fixed table order install records,
service calls, customer notes, AMC contracts, spare-part usage; in
particular a response with exactly one install record and the other tables
empty yields exactly that record's install line, with its field values
substituted into the fixed format. -/
theorem history_formatting (d : CrmData) (r : InstallRecord) (d2 : CrmData)
    (h1 : d.crm_init = [r]) (h2 : d.crm_allcall = []) (h3 : d.cust_likes = [])
    (h4 : d.crm_amccontracts = []) (h5 : d.sap_spu = [])
    (hne : historyParts d2 ≠ []) :
    get_customer_history_context (.http 200 d) =
      "Product: " ++ r.zzprod_desc ++ ", Installed on: " ++ r.zzinstall_date ++
      ", City: " ++ r.city1 ++ ", Serial: " ++ r.zzr3ser_no ++
      ", Warranty: " ++ r.warrantydesc ++ " (" ++ r.warranty_sdate ++
      " to " ++ r.warranty_edate ++ ")" ∧
    get_customer_history_context (.http 200 d2) =
      pyJoin (d2.crm_init.map fmtInstall ++ d2.crm_allcall.map fmtCall ++
              d2.cust_likes.map fmtLike ++ d2.crm_amccontracts.map fmtAmc ++
              d2.sap_spu.map fmtSpu) := by
  constructor
  · have hparts : historyParts d = [fmtInstall r] := by
      rw [historyParts, h1, h2, h3, h4, h5]
      rfl
    rw [get_customer_history_context, if_neg (by decide : ¬ (200 : Nat) ≠ 200)]
    simp only [hparts, List.isEmpty_cons, Bool.false_eq_true, if_false]
    rfl
  · have hemp : (historyParts d2).isEmpty = false := by
      cases hp : historyParts d2 with
      | nil => exact absurd hp hne
      | cons x xs => rfl
    rw [get_customer_history_context, if_neg (by decide : ¬ (200 : Nat) ≠ 200)]
    simp only [hemp, Bool.false_eq_true, if_false]
    rfl

/-- C8 witness: a response holding exactly one concrete install record. -/
theorem history_formatting_witness :
    (crmOneInstall.crm_init = [installSample] ∧ crmOneInstall.crm_allcall = [] ∧
     crmOneInstall.cust_likes = [] ∧ crmOneInstall.crm_amccontracts = [] ∧
     crmOneInstall.sap_spu = [] ∧ historyParts crmOneInstall ≠ []) ∧
    get_customer_history_context (.http 200 crmOneInstall) =
      "Product: " ++ installSample.zzprod_desc ++ ", Installed on: " ++
      installSample.zzinstall_date ++ ", City: " ++ installSample.city1 ++
      ", Serial: " ++ installSample.zzr3ser_no ++ ", Warranty: " ++
      installSample.warrantydesc ++ " (" ++ installSample.warranty_sdate ++
      " to " ++ installSample.warranty_edate ++ ")" ∧
    get_customer_history_context (.http 200 crmOneInstall) =
      pyJoin (crmOneInstall.crm_init.map fmtInstall ++
              crmOneInstall.crm_allcall.map fmtCall ++
              crmOneInstall.cust_likes.map fmtLike ++
              crmOneInstall.crm_amccontracts.map fmtAmc ++
              crmOneInstall.sap_spu.map fmtSpu) :=
  ⟨⟨rfl, rfl, rfl, rfl, rfl, by decide⟩,
   history_formatting crmOneInstall installSample crmOneInstall rfl rfl rfl rfl rfl
     (by decide)⟩

/-- C5 counterexample: the Qdrant batch ingestion entry point
(`ingest_data`, which calls `ingest_products`) has no emptiness guard — run
against a collection already reporting count 1, it performs 1 write (its
unconditional bulk upsert), not 0.  The claim's "zero additional writes /
bulk load executed only when the collection is empty" is false for this
entry point, one of the claim's cited sources. -/
theorem ingestion_second_run_counterexample :
    qdrantAfterPlain.count ≠ 0 ∧
    ingest_data qdrantAfterPlain catPlain none = .ok (qdrantAfterPlain, 1) ∧
    qdrantSecondRun ⟨[]⟩ catPlain none = .ok (qdrantAfterPlain, 1) ∧
    (1 : Nat) ≠ 0 := by
  decide

/-- C5 (amended): the Chroma entry point `initialize_chroma` is guarded —
against a collection reporting nonzero count it performs zero writes and
returns the collection unchanged; the Qdrant entry point
`ingest_data`/`ingest_products` performs its bulk upsert unconditionally —
a second run re-upserts the same ids, so its write count equals the first
run's (one write per catalog entry, nonzero for a nonempty catalog) while
the item count is unchanged by the second run. -/
theorem ingestion_idempotency (cc : ChromaCollection) (catC : List (String × Product))
    (rlC : Option (List String))
    (cq c1 c2 : QdrantCollection) (catQ : List (String × Product))
    (rlQ : Option (List String)) (n1 n2 : Nat)
    (hc : cc.count ≠ 0)
    (hq1 : ingest_data cq catQ rlQ = .ok (c1, n1))
    (hq2 : ingest_data c1 catQ rlQ = .ok (c2, n2)) :
    initialize_chroma cc catC rlC = .ok (cc, 0) ∧
    c2.count = c1.count ∧ n2 = n1 ∧ n1 = catQ.length := by
  refine ⟨by rw [initialize_chroma, if_neg hc], ?_⟩
  rw [ingest_data, ingest_products] at hq1 hq2
  cases hload : load_and_process_products_qdrant catQ rlQ with
  | error e =>
    rw [hload] at hq1
    exact absurd hq1 (by simp [Bind.bind, Except.bind])
  | ok pr =>
    obtain ⟨corpus, md⟩ := pr
    rw [hload] at hq1 hq2
    simp only [Bind.bind, Except.bind, Except.ok.injEq, Prod.mk.injEq] at hq1 hq2
    obtain ⟨hc1, hn1⟩ := hq1
    obtain ⟨hc2, hn2⟩ := hq2
    have hlengths : corpus.length = catQ.length ∧ md.length = catQ.length := by
      rw [load_and_process_products_qdrant] at hload
      cases hrd : loadReviewsOpt rlQ with
      | error e =>
        rw [hrd] at hload
        exact absurd hload (by simp [Bind.bind, Except.bind])
      | ok rd =>
        rw [hrd] at hload
        simp only [Bind.bind, Except.bind] at hload
        exact processProductsQdrant_lengths rd 2000 catQ corpus md hload
    have hpts : (mkQdrantPoints corpus md).length = catQ.length := by
      rw [mkQdrantPoints_length, hlengths.1, hlengths.2, Nat.min_self]
    have hmem : ∀ p ∈ mkQdrantPoints corpus md, p.id ∈ c1.ids := by
      intro p hp
      rw [← hc1]
      exact qdrant_upsert_mem_ids (mkQdrantPoints corpus md) cq hp
    have hids : (qdrant_upsert c1 (mkQdrantPoints corpus md)).ids = c1.ids :=
      qdrant_upsert_ids_of_all_mem (mkQdrantPoints corpus md) c1 hmem
    refine ⟨?_, ?_, ?_⟩
    · rw [← hc2, QdrantCollection.count_eq_ids_length, QdrantCollection.count_eq_ids_length,
        hids]
    · rw [← hn1, ← hn2]
    · rw [← hn1, hpts]

/-- C5 witness: a nonempty Chroma collection is returned unchanged with
zero writes, and the concrete Qdrant double run re-writes its single point
with count unchanged. -/
theorem ingestion_idempotency_witness :
    chromaNonempty.count ≠ 0 ∧
    ingest_data (⟨[]⟩ : QdrantCollection) catPlain none = .ok (qdrantAfterPlain, 1) ∧
    ingest_data qdrantAfterPlain catPlain none = .ok (qdrantAfterPlain, 1) ∧
    (initialize_chroma chromaNonempty catPlain none = .ok (chromaNonempty, 0) ∧
     qdrantAfterPlain.count = qdrantAfterPlain.count ∧ (1 : Nat) = 1 ∧
     (1 : Nat) = catPlain.length) :=
  ⟨by decide, by decide, by decide,
   ingestion_idempotency chromaNonempty catPlain none ⟨[]⟩ qdrantAfterPlain
     qdrantAfterPlain catPlain none 1 1 (by decide) (by decide) (by decide)⟩

/-- C6: every generated corpus document has at most `maxc` characters
(`max_characters` defaults to 2000 in the source), and each document is
exactly the `maxc`-character cut of the whole flattened, stripped blob —
a plain character-count slice of the joined lines, not a word- or
section-boundary-aware truncation. -/
theorem corpus_doc_truncation (rd : ReviewsDict) (maxc : Nat)
    (catalog : List (String × Product)) (corpus : List String) (md : List DocMeta)
    (i : Nat) (lines : List String)
    (h : processProducts rd maxc catalog = .ok (corpus, md))
    (hi : i < catalog.length) (hc : i < corpus.length)
    (hlines : chromaLines rd (catalog.get ⟨i, hi⟩).2 = .ok lines) :
    (∀ doc ∈ corpus, doc.length ≤ maxc) ∧
    corpus.get ⟨i, hc⟩ = pyTake (pyStrip (pyJoin lines)) maxc ∧
    (pyTake (pyStrip (pyJoin lines)) maxc).data = (pyStrip (pyJoin lines)).data.take maxc := by
  obtain ⟨hlen, hmlen, hget⟩ := processProducts_spec rd maxc catalog corpus md h
  refine ⟨?_, ?_, rfl⟩
  · intro doc hdoc
    obtain ⟨⟨j, hj⟩, hjeq⟩ := List.mem_iff_get.mp hdoc
    have hj' : j < catalog.length := hlen ▸ hj
    have hjm : j < md.length := by rw [hmlen]; exact hj'
    obtain ⟨hdj, _⟩ := hget j hj' hj hjm
    rw [hjeq] at hdj
    exact chromaDoc_length_le hdj
  · have hm : i < md.length := by rw [hmlen]; exact hi
    obtain ⟨hdi, _⟩ := hget i hi hc hm
    rw [chromaDoc, hlines] at hdi
    simp only [Bind.bind, Except.bind, Except.ok.injEq] at hdi
    exact hdi.symm

/-- C6 witness: the sample one-product catalog with its matched review. -/
theorem corpus_doc_truncation_witness :
    (∀ doc ∈ corpusSample, doc.length ≤ 2000) ∧
    corpusSample.get ⟨0, Nat.zero_lt_one⟩ = pyTake (pyStrip (pyJoin linesSample)) 2000 ∧
    (pyTake (pyStrip (pyJoin linesSample)) 2000).data =
      (pyStrip (pyJoin linesSample)).data.take 2000 :=
  corpus_doc_truncation rdSample 2000 catSample corpusSample mdSample 0 linesSample
    (by decide) Nat.zero_lt_one Nat.zero_lt_one (by decide)

/-- C7: the corpus builder emits exactly one metadata record per document,
index-aligned (position `i` carries the metadata derived from the product
at catalog position `i`); `has_reviews` is true exactly when a loaded
review record matched the product's `material_id`; when no review matched,
the generated lines are exactly the base lines — the "Amazon Reviews"
block is absent and the document equals the one built with no reviews at
all; and at ingestion time `initialize_chroma` assigns ids
`str(0), ..., str(n-1)` from the positions, storing document `i` and
metadata `i` under id `str(i)`. -/
theorem corpus_metadata_alignment (rd : ReviewsDict)
    (catalog : List (String × Product)) (corpus : List String) (md : List DocMeta)
    (i : Nat) (c : ChromaCollection) (rl : Option (List String))
    (c' : ChromaCollection) (w : Nat)
    (h : processProducts rd 2000 catalog = .ok (corpus, md))
    (hi : i < catalog.length) (hm : i < md.length)
    (hrl : loadReviewsOpt rl = .ok rd)
    (hcount : c.count = 0)
    (hinit : initialize_chroma c catalog rl = .ok (c', w)) :
    corpus.length = catalog.length ∧
    md.length = catalog.length ∧
    md.get ⟨i, hm⟩ = chromaMeta rd (catalog.get ⟨i, hi⟩).1 (catalog.get ⟨i, hi⟩).2 ∧
    ((md.get ⟨i, hm⟩).has_reviews = true ↔
      (dictLookup ((catalog.get ⟨i, hi⟩).2.material_id.getD "") rd).isSome = true) ∧
    (dictLookup ((catalog.get ⟨i, hi⟩).2.material_id.getD "") rd = none →
      chromaLines rd (catalog.get ⟨i, hi⟩).2 = .ok (baseLines (catalog.get ⟨i, hi⟩).2) ∧
      chromaDoc rd 2000 (catalog.get ⟨i, hi⟩).2 = chromaDoc [] 2000 (catalog.get ⟨i, hi⟩).2) ∧
    w = corpus.length ∧
    c'.items.map ChromaItem.id = (List.range corpus.length).map toString ∧
    c'.items.map ChromaItem.document = corpus ∧
    c'.items.map ChromaItem.metadata = md := by
  obtain ⟨hlen, hmlen, hget⟩ := processProducts_spec rd 2000 catalog corpus md h
  have hcl : i < corpus.length := by rw [hlen]; exact hi
  obtain ⟨hdoc, hmeta⟩ := hget i hi hcl hm
  have hload : load_and_process_products catalog rl = .ok (corpus, md) := by
    rw [load_and_process_products, hrl]
    simpa [Bind.bind, Except.bind] using h
  rw [initialize_chroma, if_pos hcount, hload] at hinit
  simp only [Bind.bind, Except.bind, Except.ok.injEq, Prod.mk.injEq] at hinit
  obtain ⟨hc', hw⟩ := hinit
  have hitems : c.items = [] := List.length_eq_zero.mp hcount
  have hadd : c'.items =
      addItems ((List.range corpus.length).map toString) corpus md := by
    rw [← hc', collection_add, hitems, List.nil_append]
  have hlid : ((List.range corpus.length).map toString).length = corpus.length := by
    rw [List.length_map, List.length_range]
  have hcm : corpus.length = md.length := by rw [hlen, hmlen]
  refine ⟨hlen, hmlen, hmeta, ?_, ?_, hw.symm, ?_, ?_, ?_⟩
  · rw [hmeta]
    exact Iff.rfl
  · intro hnone
    have hl1 : chromaLines rd (catalog.get ⟨i, hi⟩).2 =
        .ok (baseLines (catalog.get ⟨i, hi⟩).2) := by
      rw [chromaLines, hnone]
    refine ⟨hl1, ?_⟩
    have hl2 : chromaLines ([] : ReviewsDict) (catalog.get ⟨i, hi⟩).2 =
        .ok (baseLines (catalog.get ⟨i, hi⟩).2) := by
      rw [chromaLines]
      rfl
    rw [chromaDoc, chromaDoc, hl1, hl2]
  · rw [hadd, addItems_map_id _ _ _ hlid hcm]
  · rw [hadd, addItems_map_document _ _ _ hlid hcm]
  · rw [hadd, addItems_map_metadata _ _ _ hlid hcm]

/-- C7 witness: the sample catalog ingested from the empty collection; the
single product matches the loaded review, so `has_reviews` is true, and the
stored item carries id `"0"`, the sample document, and its metadata. -/
theorem corpus_metadata_alignment_witness :
    corpusSample.length = catSample.length ∧
    mdSample.length = catSample.length ∧
    mdSample.get ⟨0, Nat.zero_lt_one⟩ =
      chromaMeta rdSample (catSample.get ⟨0, Nat.zero_lt_one⟩).1
        (catSample.get ⟨0, Nat.zero_lt_one⟩).2 ∧
    ((mdSample.get ⟨0, Nat.zero_lt_one⟩).has_reviews = true ↔
      (dictLookup ((catSample.get ⟨0, Nat.zero_lt_one⟩).2.material_id.getD "")
        rdSample).isSome = true) ∧
    (dictLookup ((catSample.get ⟨0, Nat.zero_lt_one⟩).2.material_id.getD "")
        rdSample = none →
      chromaLines rdSample (catSample.get ⟨0, Nat.zero_lt_one⟩).2 =
        .ok (baseLines (catSample.get ⟨0, Nat.zero_lt_one⟩).2) ∧
      chromaDoc rdSample 2000 (catSample.get ⟨0, Nat.zero_lt_one⟩).2 =
        chromaDoc [] 2000 (catSample.get ⟨0, Nat.zero_lt_one⟩).2) ∧
    (1 : Nat) = corpusSample.length ∧
    chromaAfterSample.items.map ChromaItem.id =
      (List.range corpusSample.length).map toString ∧
    chromaAfterSample.items.map ChromaItem.document = corpusSample ∧
    chromaAfterSample.items.map ChromaItem.metadata = mdSample :=
  corpus_metadata_alignment rdSample catSample corpusSample mdSample 0
    ⟨[]⟩ (some reviewLinesSample) chromaAfterSample 1
    (by decide) Nat.zero_lt_one Nat.zero_lt_one (by decide) rfl (by decide)

/-- C9: a data line of the review file with a field count other than four
(`material_id|asin|url|reviews`) makes the whole load abort —
`load_amazon_reviews` returns no dict at all and `load_and_process_products`
returns no corpus at all: there is no per-line skipping and no partial
result.  (The header line is skipped unconditionally by the source, so the
malformed line is any line after it.) -/
theorem review_load_aborts (lines : List String) (line : String)
    (catalog : List (String × Product)) (maxc : Nat)
    (hmem : line ∈ lines.drop 1)
    (hbad : (pySplit (pyStrip line) '|').length ≠ 4) :
    (load_amazon_reviews lines).isOk = false ∧
    (load_and_process_products catalog (some lines) maxc).isOk = false := by
  have herr : (load_amazon_reviews lines).isOk = false := by
    cases lines with
    | nil => rfl
    | cons hdr rest =>
      exact loadReviewLines_error line hbad rest [] (by simpa using hmem)
  refine ⟨herr, ?_⟩
  rw [load_and_process_products]
  show (Except.bind (loadReviewsOpt (some lines)) _).isOk = false
  rw [loadReviewsOpt]
  cases hv : load_amazon_reviews lines with
  | error e => rfl
  | ok rd => rw [hv] at herr; cases herr

/-- C9 witness: the concrete review file whose second data line has three
fields. -/
theorem review_load_aborts_witness :
    ("M2|A2|missing-reviews-field" ∈
      (["material_id|asin|url|reviews", "M1|A1|http://a|Great machine",
        "M2|A2|missing-reviews-field"] : List String).drop 1) ∧
    (pySplit (pyStrip "M2|A2|missing-reviews-field") '|').length ≠ 4 ∧
    ((load_amazon_reviews
        ["material_id|asin|url|reviews", "M1|A1|http://a|Great machine",
         "M2|A2|missing-reviews-field"]).isOk = false ∧
     (load_and_process_products catSample
        (some ["material_id|asin|url|reviews", "M1|A1|http://a|Great machine",
               "M2|A2|missing-reviews-field"]) 2000).isOk = false) :=
  ⟨by decide, by decide,
   review_load_aborts
     ["material_id|asin|url|reviews", "M1|A1|http://a|Great machine",
      "M2|A2|missing-reviews-field"]
     "M2|A2|missing-reviews-field" catSample 2000 (by decide) (by decide)⟩

/-- C10: in the Qdrant variant the review loader stores only the keys
`asin`, `url`, `reviews`, while the document builder reads `AI-reviews` and
`Product-url`; so for any product whose `material` value matches a loaded
review key, building its document fails with `KeyError: AI-reviews`, the
batch ingestion entry point fails whenever such a product exists, and it
succeeds when no product matches any loaded review record. -/
theorem qdrant_review_key_mismatch (lines : List String) (rd : ReviewsDict)
    (c c2 : QdrantCollection) (catalog catalog2 : List (String × Product))
    (maxc : Nat) (pid : String) (p : Product)
    (hload : load_amazon_reviews lines = .ok rd)
    (hmem : (pid, p) ∈ catalog)
    (hmatch : (dictLookup (p.material.getD "") rd).isSome = true)
    (hnone : ∀ pp ∈ catalog2, dictLookup ((pp : String × Product).2.material.getD "") rd = none) :
    qdrantDoc rd maxc p = .error "KeyError: AI-reviews" ∧
    (ingest_data c catalog (some lines)).isOk = false ∧
    (ingest_data c2 catalog2 (some lines)).isOk = true := by
  have hshape := load_amazon_reviews_shape hload
  refine ⟨qdrantDoc_keyError maxc hshape hmatch, ?_, ?_⟩
  · rw [ingest_data_isOk c catalog hload]
    exact processProductsQdrant_error_of_match hshape catalog hmem hmatch
  · rw [ingest_data_isOk c2 catalog2 hload]
    exact processProductsQdrant_ok_of_no_match catalog2 hnone

/-- C10 witness: `productSample` carries `material = "M1"` matching the
loaded review, so its ingestion fails; `productPlain` matches nothing, so
its ingestion succeeds. -/
theorem qdrant_review_key_mismatch_witness :
    load_amazon_reviews reviewLinesSample = .ok rdSample ∧
    ("8903287021718", productSample) ∈ catSample ∧
    (dictLookup (productSample.material.getD "") rdSample).isSome = true ∧
    (qdrantDoc rdSample 2000 productSample = .error "KeyError: AI-reviews" ∧
     (ingest_data (⟨[]⟩ : QdrantCollection) catSample (some reviewLinesSample)).isOk = false ∧
     (ingest_data (⟨[]⟩ : QdrantCollection) catPlain (some reviewLinesSample)).isOk = true) :=
  ⟨by decide, by decide, by decide,
   qdrant_review_key_mismatch reviewLinesSample rdSample ⟨[]⟩ ⟨[]⟩ catSample catPlain
     2000 "8903287021718" productSample (by decide) (by decide) (by decide) (by decide)⟩

end Recommender
